import Mathlib

/-!
Shallow embedding of scripts/name_generator.py.

The script reads a JSON collection of records, classifies each record by
name and type patterns into two sequences (companions, squads), and then
renders one textual Rust lookup function per sequence.

Strings are modelled as Lean String; the Python string operations used by
the script (endswith, startswith, slicing by character index) are defined
below over the character list of the string, matching the per-character
semantics of Python slicing.
-/

namespace NameGen

/-- Python method name.endswith(suf): true when suf is a suffix of name. -/
def endswith (s suf : String) : Bool := suf.data.isSuffixOf s.data

/-- Python method name.startswith(pre): true when pre is a prefix of name. -/
def startswith (s p : String) : Bool := p.data.isPrefixOf s.data

/-- Python slice s[n:]: drop the first n characters. -/
def dropChars (s : String) (n : Nat) : String := ⟨s.data.drop n⟩

/-- Python slice s[:-n]: drop the last n characters (empty when n exceeds the length, as in Python). -/
def dropRightChars (s : String) (n : Nat) : String := ⟨s.data.take (s.data.length - n)⟩

/-- One element of the Entries array of the input JSON. The three fields the
script reads are modelled as optional, so that a record missing a field can
be represented (Python raises KeyError on access to a missing key). -/
structure RawEntry where
  Name : Option String
  TypeFullName : Option String
  Guid : Option String
deriving DecidableEq

/-- An (identifier, name) pair appended to the squads or companions list. -/
abbrev NamedEntry := String × String

/-- Failure of extraction: a record lacks a required field. This models the
Python KeyError raised by entry[field] on a missing key, which aborts the run. -/
inductive MalformedInput where
  | missingField (field : String)
deriving DecidableEq

/-- Python dict access entry[field]: the value when present, KeyError otherwise. -/
def getField (field : String) : Option String → Except MalformedInput String
  | some v => .ok v
  | none => .error (.missingField field)

/-- Literal type string tested by the squads rule (line 47 of the script). -/
def blueprintUnit : String := "Kingmaker.Blueprints.BlueprintUnit"

/-- Lines 47-49 of the script: the Army rule. The running value of the
variable name at this point is passed in; the result is the pair
(companion entries, squad entries) this rule appends. -/
def rule4 (guid ty name : String) : List NamedEntry × List NamedEntry :=
  if startswith name "Army" && (ty == blueprintUnit) then
    ([], [(guid, dropChars name 4)])
  else
    ([], [])

/-- Lines 41-42 of the script: the AzataDragonUnit rule, followed by the
remaining rule. This rule does not reassign name. -/
def rule3 (guid ty name : String) : List NamedEntry × List NamedEntry :=
  let r := rule4 guid ty name
  if name == "AzataDragonUnit" then ((guid, "Aivu") :: r.1, r.2) else r

/-- Lines 37-39 of the script: the AnimalCompanionUnit rule, followed by the
remaining rules. When the rule fires, name is reassigned to name[19:] before
the later rules run. -/
def rule2 (guid ty name : String) : List NamedEntry × List NamedEntry :=
  if startswith name "AnimalCompanionUnit" then
    let n := dropChars name 19
    let r := rule3 guid ty n
    ((guid, n) :: r.1, r.2)
  else
    rule3 guid ty name

/-- Lines 33-49 of the script: the whole classification of one record. When
the name ends with _Companion, name is reassigned to name[:-10] before the
later rules run. Returns (companion entries, squad entries) appended for
this record, in append order. -/
def classifyEntry (guid ty name : String) : List NamedEntry × List NamedEntry :=
  if endswith name "_Companion" then
    let n := dropRightChars name 10
    let r := rule2 guid ty n
    ((guid, n) :: r.1, r.2)
  else
    rule2 guid ty name

/-- Lines 28-49 of the script: the loop over data[Entries], threading the two
accumulator lists (squads, companions) and aborting on the first record with
a missing field, as the Python KeyError would. -/
def extractAux : List NamedEntry → List NamedEntry → List RawEntry →
    Except MalformedInput (List NamedEntry × List NamedEntry)
  | squadsAcc, companionsAcc, [] => .ok (squadsAcc, companionsAcc)
  | squadsAcc, companionsAcc, e :: rest => do
    let name ← getField "Name" e.Name
    let ty ← getField "TypeFullName" e.TypeFullName
    let guid ← getField "Guid" e.Guid
    let r := classifyEntry guid ty name
    extractAux (squadsAcc ++ r.2) (companionsAcc ++ r.1) rest

/-- Extraction over the whole record collection, starting from the two empty
module-level lists of the script. Returns (squads, companions). -/
def extract (entries : List RawEntry) : Except MalformedInput (List NamedEntry × List NamedEntry) :=
  extractAux [] [] entries

/-- Lines 11-13 of the script: the body of the rendering loop. A continue on
an empty name, otherwise one appended match arm with guid and name
interpolated verbatim. -/
def armStep (code : String) (p : NamedEntry) : String :=
  if p.2 == "" then code
  else code ++ ("        \x22" ++ p.1 ++ "\x22 => Some(\x22" ++ p.2 ++ "\x22),\n")

/-- Lines 7-20 of the script: as_string_function, accumulating the rendered
text exactly as the Python code does, one += at a time. Literal braces of the
generated Rust code are written with hex escapes. -/
def as_string_function (t : String) (entries : List NamedEntry) : String :=
  let code := "/// Convert a " ++ t ++ " guid into its (english) name\n"
  let code := code ++ ("pub fn " ++ t ++ "_as_string(s: &str) -> Option<&\x27static str> \x7b\n")
  let code := code ++ "    match s \x7b\n"
  let code := entries.foldl armStep code
  let code := code ++ "        _ => \x7b\n            info!(\x22Unknown party member found: \x7b\x7d\x22, s);\n            None\n        \x7d\n"
  let code := code ++ "    \x7d\n\x7d"
  code

/-- The text emitted by as_string_function before the first match arm. -/
def asfHeader (t : String) : String :=
  "/// Convert a " ++ t ++ " guid into its (english) name\n" ++
  ("pub fn " ++ t ++ "_as_string(s: &str) -> Option<&\x27static str> \x7b\n") ++
  "    match s \x7b\n"

/-- The single match arm rendered for one entry: identifier and name are
interpolated verbatim, with no escaping. -/
def armLine (p : NamedEntry) : String :=
  "        \x22" ++ p.1 ++ "\x22 => Some(\x22" ++ p.2 ++ "\x22),\n"

/-- The arms section of the rendered text: the loop of as_string_function
run on an empty accumulator. -/
def armsText (entries : List NamedEntry) : String :=
  entries.foldl armStep ""

/-- The text emitted by as_string_function after the last match arm: the
catch-all arm (log plus None) and the closing braces. -/
def asfFooter : String :=
  "        _ => \x7b\n            info!(\x22Unknown party member found: \x7b\x7d\x22, s);\n            None\n        \x7d\n" ++
  "    \x7d\n\x7d"

/-- Denotation of the Rust match statement rendered by as_string_function:
arms are produced only for entries with a nonempty name, they are tried in
list order against the scrutinee, and the final catch-all returns None. -/
def generatedLookup : List NamedEntry → String → Option String
  | [], _ => none
  | p :: rest, s =>
    if p.2 == "" then generatedLookup rest s
    else if s == p.1 then some p.2 else generatedLookup rest s

/-- Lines 51-58 of the script: the full pipeline producing the text of the
generated artifact, or the extraction error (in which case Python aborts
before the output file is opened, so no artifact is written). -/
def generate (entries : List RawEntry) : Except MalformedInput String :=
  match extract entries with
  | .error err => .error err
  | .ok (sq, co) =>
    .ok ("use log::info;\n\n" ++ as_string_function "squad" sq ++ "\n\n" ++
         as_string_function "companion" co ++ "\n")

/-- The loop body shifts its accumulator to the front of its output. -/
theorem armStep_shift (c : String) (p : NamedEntry) : armStep c p = c ++ armStep "" p := by
  by_cases h : p.2 == ""
  · simp [armStep, h, String.append_empty]
  · simp [armStep, h, String.empty_append]

/-- Shifting the accumulator out of the rendering loop of as_string_function. -/
theorem armsText_shift (es : List NamedEntry) : ∀ c : String,
    es.foldl armStep c = c ++ armsText es := by
  induction es with
  | nil =>
    intro c
    show c = c ++ ""
    rw [String.append_empty]
  | cons p es ih =>
    intro c
    calc es.foldl armStep (armStep c p)
        = armStep c p ++ armsText es := ih (armStep c p)
      _ = (c ++ armStep "" p) ++ armsText es := by rw [armStep_shift]
      _ = c ++ (armStep "" p ++ armsText es) := String.append_assoc ..
      _ = c ++ es.foldl armStep (armStep "" p) := by rw [ih (armStep "" p)]
      _ = c ++ armsText (p :: es) := rfl

/-- Prepending one entry to the arms section. -/
theorem armsText_cons (p : NamedEntry) (es : List NamedEntry) :
    armsText (p :: es) = armStep "" p ++ armsText es := by
  show es.foldl armStep (armStep "" p) = armStep "" p ++ armsText es
  rw [armsText_shift]

/-- Decomposition of the rendered text into header, arms and footer. -/
theorem as_string_function_eq (t : String) (es : List NamedEntry) :
    as_string_function t es = asfHeader t ++ armsText es ++ asfFooter := by
  simp only [as_string_function, asfHeader, asfFooter, armsText_shift]
  simp [String.append_assoc]

/-- The rendering loop distributes over list append: arms of the first part
come before arms of the second part. -/
theorem armsText_append (es fs : List NamedEntry) :
    armsText (es ++ fs) = armsText es ++ armsText fs := by
  show (es ++ fs).foldl armStep "" = armsText es ++ armsText fs
  rw [List.foldl_append, armsText_shift]
  rfl

/-- Entries with an empty name contribute nothing to the rendered arms. -/
theorem armsText_filter (es : List NamedEntry) :
    armsText (es.filter (fun p => !(p.2 == ""))) = armsText es := by
  induction es with
  | nil => rfl
  | cons p es ih =>
    rw [List.filter_cons]
    cases hb : (p.2 == "") with
    | true =>
      have hstep : armStep "" p = "" := by simp [armStep, hb]
      simp only [hb, Bool.not_true, if_neg Bool.false_ne_true, ih,
        armsText_cons, hstep, String.empty_append]
    | false =>
      simp [hb, armsText_cons, ih]

/-- Every pair appended by the classification of one record carries the Guid
of that record as its identifier. -/
theorem classify_guid (g t n : String) (p : NamedEntry)
    (hp : p ∈ (classifyEntry g t n).1 ∨ p ∈ (classifyEntry g t n).2) : p.1 = g := by
  simp only [classifyEntry, rule2, rule3, rule4] at hp
  split_ifs at hp <;> aesop

/-- One loop step of extraction when all three fields are present. -/
theorem extractAux_cons_ok (sq0 co0 : List NamedEntry) (e : RawEntry) (rest : List RawEntry)
    (name ty guid : String)
    (hN : e.Name = some name) (hT : e.TypeFullName = some ty) (hG : e.Guid = some guid) :
    extractAux sq0 co0 (e :: rest) =
      extractAux (sq0 ++ (classifyEntry guid ty name).2)
        (co0 ++ (classifyEntry guid ty name).1) rest := by
  rcases e with ⟨eN, eT, eG⟩
  cases hN; cases hT; cases hG
  rfl

/-- Extraction aborts on a record with no Name field. -/
theorem extractAux_cons_errName (sq0 co0 : List NamedEntry) (e : RawEntry) (rest : List RawEntry)
    (hN : e.Name = none) :
    extractAux sq0 co0 (e :: rest) = .error (.missingField "Name") := by
  rcases e with ⟨eN, eT, eG⟩
  cases hN
  rfl

/-- Extraction aborts on a record with a Name but no TypeFullName field. -/
theorem extractAux_cons_errType (sq0 co0 : List NamedEntry) (e : RawEntry) (rest : List RawEntry)
    (name : String) (hN : e.Name = some name) (hT : e.TypeFullName = none) :
    extractAux sq0 co0 (e :: rest) = .error (.missingField "TypeFullName") := by
  rcases e with ⟨eN, eT, eG⟩
  cases hN; cases hT
  rfl

/-- Extraction aborts on a record with Name and TypeFullName but no Guid field. -/
theorem extractAux_cons_errGuid (sq0 co0 : List NamedEntry) (e : RawEntry) (rest : List RawEntry)
    (name ty : String) (hN : e.Name = some name) (hT : e.TypeFullName = some ty)
    (hG : e.Guid = none) :
    extractAux sq0 co0 (e :: rest) = .error (.missingField "Guid") := by
  rcases e with ⟨eN, eT, eG⟩
  cases hN; cases hT; cases hG
  rfl

/-- A collection holding a record with a missing required field makes the
extraction loop abort with an error, whatever the accumulators hold. -/
theorem extractAux_malformed :
    ∀ entries : List RawEntry,
      (∃ e ∈ entries, e.Name = none ∨ e.TypeFullName = none ∨ e.Guid = none) →
      ∀ sq0 co0 : List NamedEntry, ∃ err, extractAux sq0 co0 entries = .error err := by
  intro entries
  induction entries with
  | nil =>
    rintro ⟨e, he, _⟩
    exact absurd he (List.not_mem_nil e)
  | cons e rest ih =>
    rintro ⟨f, hf, hnone⟩ sq0 co0
    cases hN : e.Name with
    | none => exact ⟨.missingField "Name", extractAux_cons_errName sq0 co0 e rest hN⟩
    | some name =>
      cases hT : e.TypeFullName with
      | none => exact ⟨.missingField "TypeFullName", extractAux_cons_errType sq0 co0 e rest name hN hT⟩
      | some ty =>
        cases hG : e.Guid with
        | none => exact ⟨.missingField "Guid", extractAux_cons_errGuid sq0 co0 e rest name ty hN hT hG⟩
        | some guid =>
          have hfrest : f ∈ rest := by
            rcases List.mem_cons.mp hf with rfl | h
            · rcases hnone with h | h | h <;> simp_all
            · exact h
          obtain ⟨err, herr⟩ := ih ⟨f, hfrest, hnone⟩
            (sq0 ++ (classifyEntry guid ty name).2) (co0 ++ (classifyEntry guid ty name).1)
          exact ⟨err, by rw [extractAux_cons_ok sq0 co0 e rest name ty guid hN hT hG]; exact herr⟩

/-- When extraction succeeds and every input Guid is a nonempty string, every
pair in either output list has a nonempty identifier. -/
theorem extractAux_guids :
    ∀ (entries : List RawEntry) (sq0 co0 sq co : List NamedEntry),
      (∀ p ∈ sq0, p.1 ≠ "") → (∀ p ∈ co0, p.1 ≠ "") →
      (∀ e ∈ entries, e.Guid ≠ some "") →
      extractAux sq0 co0 entries = .ok (sq, co) →
      (∀ p ∈ sq, p.1 ≠ "") ∧ (∀ p ∈ co, p.1 ≠ "") := by
  intro entries
  induction entries with
  | nil =>
    intro sq0 co0 sq co h1 h2 _ hok
    have hok2 : Except.ok (ε := MalformedInput) (sq0, co0) = .ok (sq, co) := hok
    simp only [Except.ok.injEq, Prod.mk.injEq] at hok2
    obtain ⟨rfl, rfl⟩ := hok2
    exact ⟨h1, h2⟩
  | cons e rest ih =>
    intro sq0 co0 sq co h1 h2 hg hok
    cases hN : e.Name with
    | none =>
      rw [extractAux_cons_errName sq0 co0 e rest hN] at hok
      exact absurd hok (by simp)
    | some name =>
      cases hT : e.TypeFullName with
      | none =>
        rw [extractAux_cons_errType sq0 co0 e rest name hN hT] at hok
        exact absurd hok (by simp)
      | some ty =>
        cases hG : e.Guid with
        | none =>
          rw [extractAux_cons_errGuid sq0 co0 e rest name ty hN hT hG] at hok
          exact absurd hok (by simp)
        | some guid =>
          rw [extractAux_cons_ok sq0 co0 e rest name ty guid hN hT hG] at hok
          have hguid : guid ≠ "" := by
            intro hgg
            exact hg e (by simp) (by rw [hG, hgg])
          refine ih _ _ _ _ ?_ ?_ (fun f hf => hg f (by simp [hf])) hok
          · intro p hp
            rcases List.mem_append.mp hp with h | h
            · exact h1 p h
            · rw [classify_guid guid ty name p (Or.inr h)]; exact hguid
          · intro p hp
            rcases List.mem_append.mp hp with h | h
            · exact h2 p h
            · rw [classify_guid guid ty name p (Or.inl h)]; exact hguid

/-- The rendered match either falls through to the catch-all, or returns the
name of the first entry whose identifier matches and whose name is nonempty. -/
theorem generatedLookup_spec (es : List NamedEntry) (s : String) :
    generatedLookup es s = none ∨
      ∃ p, p ∈ es ∧ (p.2 == "") = false ∧ (s == p.1) = true ∧
        generatedLookup es s = some p.2 := by
  induction es with
  | nil => exact Or.inl rfl
  | cons p es ih =>
    cases hb : (p.2 == "") with
    | true =>
      have hgl : generatedLookup (p :: es) s = generatedLookup es s := by
        simp [generatedLookup, hb]
      rcases ih with h1 | ⟨q, hq1, hq2, hq3, hq4⟩
      · exact Or.inl (by rw [hgl]; exact h1)
      · exact Or.inr ⟨q, List.mem_cons_of_mem _ hq1, hq2, hq3, by rw [hgl]; exact hq4⟩
    | false =>
      cases hs : (s == p.1) with
      | true =>
        refine Or.inr ⟨p, by simp, hb, hs, ?_⟩
        simp [generatedLookup, hb, hs]
      | false =>
        have hgl : generatedLookup (p :: es) s = generatedLookup es s := by
          simp [generatedLookup, hb, hs]
        rcases ih with h1 | ⟨q, hq1, hq2, hq3, hq4⟩
        · exact Or.inl (by rw [hgl]; exact h1)
        · exact Or.inr ⟨q, List.mem_cons_of_mem _ hq1, hq2, hq3, by rw [hgl]; exact hq4⟩

/-- When every entry carrying a given identifier has an empty name, the
rendered match returns None for that identifier. -/
theorem generatedLookup_none (es : List NamedEntry) (i : String)
    (h : ∀ p ∈ es, p.1 = i → p.2 = "") : generatedLookup es i = none := by
  induction es with
  | nil => rfl
  | cons p es ih =>
    have hrest : ∀ q ∈ es, q.1 = i → q.2 = "" := fun q hq => h q (by simp [hq])
    cases hb : (p.2 == "") with
    | true => simp [generatedLookup, hb, ih hrest]
    | false =>
      cases hi : (i == p.1) with
      | true =>
        exfalso
        have h1 : p.1 = i := (eq_of_beq hi).symm
        have h2 : p.2 = "" := h p (by simp) h1
        rw [h2] at hb
        simp at hb
      | false => simp [generatedLookup, hb, hi, ih hrest]

/-- The Army rule never appends to the companions list. -/
theorem rule4_fst (g t n : String) : (rule4 g t n).1 = [] := by
  cases hC : (startswith n "Army" && (t == blueprintUnit)) with
  | true => simp [rule4, hC]
  | false => simp [rule4, hC]

/-- C1 counterexample: the classification rules are independent conditionals
over a mutating name, not alternatives. The record named
AnimalCompanionUnitWolf_Companion ends with _Companion yet contributes two
companion entries, and the record named Army_Companion with the unit
blueprint type ends with _Companion yet also contributes a squads entry. -/
theorem companion_rule_not_exclusive_cex :
    endswith "AnimalCompanionUnitWolf_Companion" "_Companion" = true ∧
    classifyEntry "G" "T" "AnimalCompanionUnitWolf_Companion" =
      ([("G", "AnimalCompanionUnitWolf"), ("G", "Wolf")], []) ∧
    endswith "Army_Companion" "_Companion" = true ∧
    classifyEntry "G" blueprintUnit "Army_Companion" = ([("G", "Army")], [("G", "")]) :=
  ⟨by decide, by decide, by decide, by decide⟩

/-- C1 (amended): for a record whose displayName ends with _Companion, the
first companions entry is (identifier, displayName minus its last 10
characters), and the remaining rules are then applied to the stripped name;
the record contributes exactly that one entry and nothing to squads if and
only if the stripped name matches none of the later rule conditions. -/
theorem companion_suffix_appends_then_chains (g t n : String)
    (h : endswith n "_Companion" = true) :
    classifyEntry g t n =
      ((g, dropRightChars n 10) :: (rule2 g t (dropRightChars n 10)).1,
        (rule2 g t (dropRightChars n 10)).2) ∧
    (classifyEntry g t n = ([(g, dropRightChars n 10)], []) ↔
      (startswith (dropRightChars n 10) "AnimalCompanionUnit" = false ∧
        (dropRightChars n 10 == "AzataDragonUnit") = false ∧
        (startswith (dropRightChars n 10) "Army" = false ∨ (t == blueprintUnit) = false))) := by
  have h1 : classifyEntry g t n =
      ((g, dropRightChars n 10) :: (rule2 g t (dropRightChars n 10)).1,
        (rule2 g t (dropRightChars n 10)).2) := by
    simp [classifyEntry, h]
  refine ⟨h1, ?_⟩
  rw [h1]
  cases h2 : startswith (dropRightChars n 10) "AnimalCompanionUnit" with
  | true =>
    apply iff_of_false
    · intro heq
      simp [rule2, h2] at heq
    · rintro ⟨hc1, _, _⟩
      exact absurd hc1 (by simp)
  | false =>
    cases h3 : (dropRightChars n 10 == "AzataDragonUnit") with
    | true =>
      apply iff_of_false
      · intro heq
        simp [rule2, h2, rule3, h3, rule4_fst] at heq
      · rintro ⟨_, hc2, _⟩
        exact absurd hc2 (by simp)
    | false =>
      cases h4 : (startswith (dropRightChars n 10) "Army" && (t == blueprintUnit)) with
      | true =>
        have hab := h4
        rw [Bool.and_eq_true] at hab
        obtain ⟨ha, hb⟩ := hab
        apply iff_of_false
        · intro heq
          simp [rule2, h2, rule3, h3, rule4, h4] at heq
        · rintro ⟨_, _, hc3 | hc3⟩
          · rw [ha] at hc3; exact absurd hc3 (by simp)
          · rw [hb] at hc3; exact absurd hc3 (by simp)
      | false =>
        apply iff_of_true
        · simp [rule2, h2, rule3, h3, rule4, h4]
        · refine ⟨rfl, rfl, ?_⟩
          cases ha : startswith (dropRightChars n 10) "Army" with
          | false => exact Or.inl rfl
          | true =>
            cases hb : (t == blueprintUnit) with
            | false => exact Or.inr rfl
            | true => rw [ha, hb] at h4; exact absurd h4 (by simp)

/-- C1 witness: a concrete record ending with _Companion whose stripped name
matches no later rule produces exactly one companions entry. -/
theorem companion_suffix_appends_then_chains_witness :
    classifyEntry "G1" "X" "Hero_Companion" = ([("G1", "Hero")], []) :=
  (companion_suffix_appends_then_chains "G1" "X" "Hero_Companion" (by decide)).2.mpr (by decide)

/-- C2 counterexample: the script performs no check on the Guid field, so a
record with an empty Guid yields an appended entry with an empty identifier. -/
theorem identifier_nonempty_cex :
    extract [⟨some "Hero_Companion", some "X", some ""⟩] = .ok ([], [("", "Hero")]) ∧
    ¬(∀ p : NamedEntry, p ∈ ([] : List NamedEntry) ∨ p ∈ [("", "Hero")] → p.1 ≠ "") :=
  ⟨rfl, fun h => h ("", "Hero") (Or.inr (by simp)) rfl⟩

/-- C2 (amended): every appended entry carries the Guid of its source record
verbatim, so when every record of the input has a nonempty Guid, every entry
appended to squads or companions has a nonempty identifier. -/
theorem identifiers_from_guids (entries : List RawEntry) (sq co : List NamedEntry)
    (hok : extract entries = .ok (sq, co))
    (hg : ∀ e ∈ entries, e.Guid ≠ some "") :
    (∀ p ∈ sq, p.1 ≠ "") ∧ (∀ p ∈ co, p.1 ≠ "") :=
  extractAux_guids entries [] [] sq co (by simp) (by simp) hg hok

/-- C2 witness: a concrete run with a nonempty Guid yields an entry with a
nonempty identifier. -/
theorem identifiers_from_guids_witness :
    extract [⟨some "Hero_Companion", some "X", some "G1"⟩] = .ok ([], [("G1", "Hero")]) ∧
    ("G1", "Hero").1 ≠ "" :=
  ⟨rfl,
    (identifiers_from_guids [⟨some "Hero_Companion", some "X", some "G1"⟩] [] [("G1", "Hero")]
      rfl (by decide)).2 ("G1", "Hero") (by simp)⟩

/-- C3: a record resolving to an empty name is still appended at extraction
time; the emitter renders the same text as if entries with empty names were
absent, so no arm is rendered for them; and a lookup for an identifier all of
whose entries have empty names falls through to the catch-all, returning
None. -/
theorem empty_name_two_phase_filter :
    extract [⟨some "_Companion", some "X", some "G"⟩] = .ok ([], [("G", "")]) ∧
    (∀ (t : String) (es : List NamedEntry),
      as_string_function t es = as_string_function t (es.filter (fun p => !(p.2 == "")))) ∧
    (∀ (es : List NamedEntry) (i : String),
      (∀ p ∈ es, p.1 = i → p.2 = "") → generatedLookup es i = none) := by
  refine ⟨rfl, ?_, fun es i h => generatedLookup_none es i h⟩
  intro t es
  rw [as_string_function_eq, as_string_function_eq, armsText_filter]

/-- C3 witness: the lookup for the identifier of a concrete empty-name entry
falls through to the catch-all. -/
theorem empty_name_two_phase_filter_witness :
    generatedLookup [("G", "")] "G" = none :=
  empty_name_two_phase_filter.2.2 [("G", "")] "G" (by decide)

/-- C8: the stripping arithmetic of the three companion rules on the
concrete names of the claim, for any TypeFullName. -/
theorem stripping_arithmetic (t : String) :
    classifyEntry "G1" t "AnimalCompanionUnitWolf" = ([("G1", "Wolf")], []) ∧
    classifyEntry "G2" t "Hero_Companion" = ([("G2", "Hero")], []) ∧
    classifyEntry "G3" t "AzataDragonUnit" = ([("G3", "Aivu")], []) := by
  refine ⟨?_, ?_, ?_⟩
  · have e1 : endswith "AnimalCompanionUnitWolf" "_Companion" = false := by decide
    have e2 : startswith "AnimalCompanionUnitWolf" "AnimalCompanionUnit" = true := by decide
    have e3 : dropChars "AnimalCompanionUnitWolf" 19 = "Wolf" := by decide
    have e4 : ("Wolf" == "AzataDragonUnit") = false := by decide
    have e5 : startswith "Wolf" "Army" = false := by decide
    simp [classifyEntry, rule2, rule3, rule4, e1, e2, e3, e4, e5]
  · have e1 : endswith "Hero_Companion" "_Companion" = true := by decide
    have e2 : dropRightChars "Hero_Companion" 10 = "Hero" := by decide
    have e3 : startswith "Hero" "AnimalCompanionUnit" = false := by decide
    have e4 : ("Hero" == "AzataDragonUnit") = false := by decide
    have e5 : startswith "Hero" "Army" = false := by decide
    simp [classifyEntry, rule2, rule3, rule4, e1, e2, e3, e4, e5]
  · have e1 : endswith "AzataDragonUnit" "_Companion" = false := by decide
    have e2 : startswith "AzataDragonUnit" "AnimalCompanionUnit" = false := by decide
    have e3 : ("AzataDragonUnit" == "AzataDragonUnit") = true := by decide
    have e4 : startswith "AzataDragonUnit" "Army" = false := by decide
    simp [classifyEntry, rule2, rule3, rule4, e1, e2, e3, e4]

/-- C10: a record whose displayName is the empty string matches none of the
four classification rules, whatever its TypeFullName and Guid: it yields no
entry in either sequence and extraction succeeds silently. -/
theorem empty_displayName_unclassified (g t : String) :
    classifyEntry g t "" = ([], []) ∧
    extract [⟨some "", some t, some g⟩] = .ok ([], []) := by
  have e1 : endswith "" "_Companion" = false := by decide
  have e2 : startswith "" "AnimalCompanionUnit" = false := by decide
  have e3 : ("" == "AzataDragonUnit") = false := by decide
  have e4 : startswith "" "Army" = false := by decide
  have hc : classifyEntry g t "" = ([], []) := by
    simp [classifyEntry, rule2, rule3, rule4, e1, e2, e3, e4]
  refine ⟨hc, ?_⟩
  rw [extract, extractAux_cons_ok [] [] _ [] "" t g rfl rfl rfl, hc]
  rfl

/-- A match that already resolves on a first block of arms resolves the same
way when further arms are appended after that block. -/
theorem generatedLookup_append_first (es fs : List NamedEntry) (s v : String)
    (h : generatedLookup es s = some v) : generatedLookup (es ++ fs) s = some v := by
  induction es with
  | nil => exact absurd h (by simp [generatedLookup])
  | cons p es ih =>
    cases hb : (p.2 == "") with
    | true =>
      have h2 : generatedLookup es s = some v := by
        rw [show generatedLookup (p :: es) s = generatedLookup es s from by
          simp [generatedLookup, hb]] at h
        exact h
      show generatedLookup (p :: (es ++ fs)) s = some v
      rw [show generatedLookup (p :: (es ++ fs)) s = generatedLookup (es ++ fs) s from by
        simp [generatedLookup, hb]]
      exact ih h2
    | false =>
      cases hs : (s == p.1) with
      | true =>
        have h2 : some p.2 = some v := by
          rw [show generatedLookup (p :: es) s = some p.2 from by
            simp [generatedLookup, hb, hs]] at h
          exact h
        show generatedLookup (p :: (es ++ fs)) s = some v
        rw [show generatedLookup (p :: (es ++ fs)) s = some p.2 from by
          simp [generatedLookup, hb, hs]]
        exact h2
      | false =>
        have h2 : generatedLookup es s = some v := by
          rw [show generatedLookup (p :: es) s = generatedLookup es s from by
            simp [generatedLookup, hb, hs]] at h
          exact h
        show generatedLookup (p :: (es ++ fs)) s = some v
        rw [show generatedLookup (p :: (es ++ fs)) s = generatedLookup (es ++ fs) s from by
          simp [generatedLookup, hb, hs]]
        exact ih h2

/-- C4: the emitter renders the arms of a concatenated sequence as the arms
of the first part followed by the arms of the second part, in input order;
a lookup resolved by an earlier block of arms is unchanged by arms appended
after it (first occurrence wins); and on the concrete duplicate-identifier
sequence of the claim the rendered match returns the first name. -/
theorem arms_in_input_order_first_match_wins :
    (∀ (t : String) (es fs : List NamedEntry),
      as_string_function t (es ++ fs) =
        asfHeader t ++ (armsText es ++ armsText fs) ++ asfFooter) ∧
    (∀ (es fs : List NamedEntry) (s v : String),
      generatedLookup es s = some v → generatedLookup (es ++ fs) s = some v) ∧
    generatedLookup [("G1", "A"), ("G1", "B")] "G1" = some "A" := by
  refine ⟨?_, generatedLookup_append_first, by decide⟩
  intro t es fs
  rw [as_string_function_eq, armsText_append]

/-- C4 witness: appending a conflicting arm after a resolving arm does not
change the concrete lookup result. -/
theorem arms_in_input_order_first_match_wins_witness :
    generatedLookup ([("G1", "A")] ++ [("G1", "C")]) "G1" = some "A" :=
  arms_in_input_order_first_match_wins.2.1 [("G1", "A")] [("G1", "C")] "G1" "A" (by decide)

/-- C5: the rendered match is total: for every entry sequence and every
scrutinee it either returns the name of some matching nonempty-name entry or
returns None, and the rendered text always ends with the catch-all footer
placed after all entry arms. -/
theorem generated_lookup_total :
    (∀ (es : List NamedEntry) (s : String),
      generatedLookup es s = none ∨
        ∃ p, p ∈ es ∧ (p.2 == "") = false ∧ (s == p.1) = true ∧
          generatedLookup es s = some p.2) ∧
    (∀ (t : String) (es : List NamedEntry),
      ∃ pre, as_string_function t es = pre ++ asfFooter) :=
  ⟨generatedLookup_spec, fun t es => ⟨asfHeader t ++ armsText es, as_string_function_eq t es⟩⟩

/-- C6: a collection holding a record with any of the three required fields
missing makes extraction fail with a MalformedInput error, and the whole run
produces no generated artifact. -/
theorem malformed_record_aborts_run (entries : List RawEntry)
    (h : ∃ e ∈ entries, e.Name = none ∨ e.TypeFullName = none ∨ e.Guid = none) :
    (extract entries).isOk = false ∧ (generate entries).isOk = false := by
  obtain ⟨err, herr⟩ := extractAux_malformed entries h [] []
  have hex : extract entries = .error err := herr
  have hgen : generate entries = .error err := by
    unfold generate
    rw [hex]
  rw [hex, hgen]
  exact ⟨rfl, rfl⟩

/-- C6 witness: a concrete record with no Name field aborts the run. -/
theorem malformed_record_aborts_run_witness :
    (extract [⟨none, some "X", some "G"⟩]).isOk = false ∧
    (generate [⟨none, some "X", some "G"⟩]).isOk = false :=
  malformed_record_aborts_run [⟨none, some "X", some "G"⟩]
    ⟨⟨none, some "X", some "G"⟩, by simp, Or.inl rfl⟩

/-- C7: for a record matched by no earlier companion rule, the squads list
receives exactly the entry (identifier, displayName minus its first 4
characters) when the displayName starts with Army and the TypeFullName is the
unit blueprint string, and nothing otherwise; and a record named ArmyOrcs
with any other TypeFullName yields no entry at all. -/
theorem squads_iff_army_blueprint (g t n g2 t2 : String)
    (h1 : endswith n "_Companion" = false)
    (h2 : startswith n "AnimalCompanionUnit" = false)
    (h3 : (n == "AzataDragonUnit") = false)
    (h4 : (t2 == blueprintUnit) = false) :
    (classifyEntry g t n).2 =
      (if startswith n "Army" && (t == blueprintUnit) then [(g, dropChars n 4)] else []) ∧
    classifyEntry g2 t2 "ArmyOrcs" = ([], []) := by
  constructor
  · have ha : classifyEntry g t n = rule2 g t n := by simp [classifyEntry, h1]
    have hb : rule2 g t n = rule3 g t n := by simp [rule2, h2]
    have hc : rule3 g t n = rule4 g t n := by simp [rule3, h3]
    rw [ha, hb, hc]
    cases hC : (startswith n "Army" && (t == blueprintUnit)) with
    | true => simp [rule4, hC]
    | false => simp [rule4, hC]
  · have e1 : endswith "ArmyOrcs" "_Companion" = false := by decide
    have e2 : startswith "ArmyOrcs" "AnimalCompanionUnit" = false := by decide
    have e3 : ("ArmyOrcs" == "AzataDragonUnit") = false := by decide
    have e4 : startswith "ArmyOrcs" "Army" = true := by decide
    simp [classifyEntry, rule2, rule3, rule4, e1, e2, e3, e4, h4]

/-- C7 witness: at a concrete Army record with the unit blueprint type the
squads entry is produced, and the concrete ArmyOrcs record with another type
yields nothing. -/
theorem squads_iff_army_blueprint_witness :
    (classifyEntry "G1" blueprintUnit "ArmyGoblinSquad").2 =
      (if startswith "ArmyGoblinSquad" "Army" && (blueprintUnit == blueprintUnit)
        then [("G1", dropChars "ArmyGoblinSquad" 4)] else []) ∧
    classifyEntry "G2" "Other" "ArmyOrcs" = ([], []) :=
  squads_iff_army_blueprint "G1" blueprintUnit "ArmyGoblinSquad" "G2" "Other"
    (by decide) (by decide) (by decide) (by decide)

set_option maxRecDepth 8192 in
/-- C9: the arm rendered for one entry is the identifier and the name
interpolated character for character between the fixed delimiters, with no
escaping; the whole rendered text is the header, the verbatim arms and the
footer; and on a concrete name holding a double quote the quote appears
unescaped in the output. -/
theorem arm_rendered_verbatim :
    (∀ p : NamedEntry, armsText [p] =
      (if p.2 == "" then ""
        else "        \x22" ++ p.1 ++ "\x22 => Some(\x22" ++ p.2 ++ "\x22),\n")) ∧
    (∀ (t : String) (es : List NamedEntry),
      as_string_function t es = asfHeader t ++ armsText es ++ asfFooter) ∧
    as_string_function "companion" [("G", "A\x22B")] =
      "/// Convert a companion guid into its (english) name\npub fn companion_as_string(s: &str) -> Option<&\x27static str> \x7b\n    match s \x7b\n        \x22G\x22 => Some(\x22A\x22B\x22),\n        _ => \x7b\n            info!(\x22Unknown party member found: \x7b\x7d\x22, s);\n            None\n        \x7d\n    \x7d\n\x7d" := by
  refine ⟨?_, as_string_function_eq, by decide⟩
  intro p
  cases hb : (p.2 == "") with
  | true =>
    have hstep : armStep "" p = "" := by simp [armStep, hb]
    rw [armsText_cons, hstep, show armsText [] = ("" : String) from rfl]
    simp
  | false =>
    have hstep : armStep "" p =
        "        \x22" ++ p.1 ++ "\x22 => Some(\x22" ++ p.2 ++ "\x22),\n" := by
      simp [armStep, hb, String.empty_append]
    rw [armsText_cons, hstep, show armsText [] = ("" : String) from rfl,
      String.append_empty]
    simp

end NameGen
